import Mathlib

/-!
Shallow embedding of the dataset-builder pipeline of the crypto-finder
repository (compiler, extraction, labeling, source acquisition), with
theorems settling the specification claims about it.

Python strings are modelled as `List Char`; Python string methods used by
the code (split, lower, substring containment, replace, whitespace split)
are embedded as structurally recursive functions so that every definition
evaluates by kernel reduction.
-/

namespace CryptoFinder

/-- Model of a Python string. -/
abbrev Str := List Char

/-! ## Python string primitives -/

/-- Helper for `split`: returns the current segment and the completed
segments after it. -/
def splitAux (sep : Char) : Str → Str × List Str
  | [] => ([], [])
  | c :: rest =>
    let r := splitAux sep rest
    if c = sep then ([], r.1 :: r.2) else (c :: r.1, r.2)

/-- Python `s.split(sep)` for a one-character separator: keeps empty
segments, and the empty string yields one empty segment. -/
def split (sep : Char) (s : Str) : List Str :=
  let r := splitAux sep s
  r.1 :: r.2

/-- Python whitespace characters recognised by no-argument `str.split()`. -/
def pyIsSpace (c : Char) : Bool :=
  c = ' ' ∨ c = '\t' ∨ c = '\n' ∨ c = '\r' ∨ c = '\x0b' ∨ c = '\x0c'

/-- Helper for `splitWs`: like `splitAux` but on a whitespace predicate. -/
def splitWsAux : Str → Str × List Str
  | [] => ([], [])
  | c :: rest =>
    let r := splitWsAux rest
    if pyIsSpace c then ([], r.1 :: r.2) else (c :: r.1, r.2)

/-- Python no-argument `str.split()`: split on whitespace runs, dropping
empty segments. -/
def splitWs (s : Str) : List Str :=
  let r := splitWsAux s
  (r.1 :: r.2).filter (fun seg => ¬ seg.isEmpty)

/-- Python `str.lower()` on the ASCII range used by the code. -/
def lower (s : Str) : Str := s.map Char.toLower

/-- Python substring containment `needle in hay`. -/
def containsSub (hay needle : Str) : Bool :=
  if needle.isPrefixOf hay then true
  else
    match hay with
    | [] => false
    | _ :: t => containsSub t needle

/-- Python `s.replace(old, new)` for a one-character `old` replaced by the
empty string: drops every occurrence of the character. -/
def removeChar (old : Char) (s : Str) : Str := s.filter (fun c => ¬ c = old)

/-- Index of the last occurrence of a character, if any. -/
def lastIdxOf (c : Char) : Str → Option Nat
  | [] => none
  | x :: rest =>
    match lastIdxOf c rest with
    | some i => some (i + 1)
    | none => if x = c then some 0 else none

/-- Final path component: the part after the last slash
(`PurePosixPath(p).name`). -/
def basename (p : Str) : Str := (split '/' p).getLastD []

/-- Python `pathlib.Path(p).stem`: the final component without its last
dot-suffix; a dot at position 0 or at the very end does not start a
suffix. -/
def stem (p : Str) : Str :=
  let n := basename p
  match lastIdxOf '.' n with
  | some i => if 0 < i ∧ i + 1 < n.length then n.take i else n
  | none => n

/-! ## AutoLabeler (dataset_builder/labeling/auto_labeler.py) -/

/-- The keyword-to-algorithm catalog `AutoLabeler.ALGORITHM_MAP`, in its
declared (insertion) order. -/
def ALGORITHM_MAP : List (Str × Str) :=
  [ ("aes".toList, "AES".toList),
    ("des".toList, "DES".toList),
    ("3des".toList, "3DES".toList),
    ("chacha".toList, "ChaCha20".toList),
    ("blowfish".toList, "Blowfish".toList),
    ("twofish".toList, "Twofish".toList),
    ("rsa".toList, "RSA".toList),
    ("dsa".toList, "DSA".toList),
    ("dh".toList, "DH".toList),
    ("ecdh".toList, "ECDH".toList),
    ("ecdsa".toList, "ECDSA".toList),
    ("ecc".toList, "ECC".toList),
    ("sha1".toList, "SHA-1".toList),
    ("sha224".toList, "SHA-224".toList),
    ("sha256".toList, "SHA-256".toList),
    ("sha384".toList, "SHA-384".toList),
    ("sha512".toList, "SHA-512".toList),
    ("sha3".toList, "SHA-3".toList),
    ("md5".toList, "MD5".toList),
    ("blake".toList, "BLAKE".toList),
    ("hmac".toList, "HMAC".toList),
    ("cmac".toList, "CMAC".toList),
    ("gmac".toList, "GMAC".toList),
    ("pbkdf2".toList, "PBKDF2".toList),
    ("hkdf".toList, "HKDF".toList),
    ("scrypt".toList, "Scrypt".toList) ]

/-- `AutoLabeler._detect_algorithm`: lower-case the function name and return
the value of the first catalog key contained in it, else Unknown. -/
def detect_algorithm (function_name : Str) : Str :=
  match ALGORITHM_MAP.find? (fun kv => containsSub (lower function_name) kv.1) with
  | some kv => kv.2
  | none => "Unknown".toList

/-- The label dict attached by `AutoLabeler.label_function`: either the
five-field crypto label, or the two-field Unknown label produced when the
filename has fewer than four underscore-delimited parts (that dict carries
only the algorithm and is_crypto keys). -/
inductive Label where
  | crypto (algorithm library architecture optimization function_name : Str)
  | unknownFormat
  deriving DecidableEq, Repr

/-- The algorithm field of a label. -/
def Label.algorithm : Label → Str
  | .crypto a _ _ _ _ => a
  | .unknownFormat => "Unknown".toList

/-- The is_crypto field of a label. -/
def Label.is_crypto : Label → Bool
  | .crypto _ _ _ _ _ => true
  | .unknownFormat => false

/-- The library field of a label, when present. -/
def Label.library : Label → Option Str
  | .crypto _ l _ _ _ => some l
  | .unknownFormat => none

/-- The architecture field of a label, when present. -/
def Label.architecture : Label → Option Str
  | .crypto _ _ a _ _ => some a
  | .unknownFormat => none

/-- The optimization field of a label, when present. -/
def Label.optimization : Label → Option Str
  | .crypto _ _ _ o _ => some o
  | .unknownFormat => none

/-- The function_name field of a label, when present. -/
def Label.function_name : Label → Option Str
  | .crypto _ _ _ _ f => some f
  | .unknownFormat => none

/-- The label computed by `AutoLabeler.label_function` from the binary path
alone: split the filename stem on underscores; with at least four parts,
take library, function, architecture, optimization from parts 0..3 and
detect the algorithm from part 1; otherwise the Unknown label. -/
def labelOf (binary_path : Str) : Label :=
  let binary_name := stem binary_path
  let parts := split '_' binary_name
  if 4 ≤ parts.length then
    let library := parts.getD 0 []
    let func_name := parts.getD 1 []
    let architecture := parts.getD 2 []
    let optimization := parts.getD 3 []
    .crypto (detect_algorithm func_name) library architecture optimization func_name
  else
    .unknownFormat

/-- The function-metadata dict passed to the labeler: its pre-existing
entries (opaque to the labeler) and the label entry the labeler adds. -/
structure FuncInfo where
  fields : List (Str × Str)
  label : Option Label
  deriving DecidableEq, Repr

/-- `AutoLabeler.label_function`: returns the function info with the label
field set from the binary path. -/
def label_function (binary_path : Str) (function_info : FuncInfo) : FuncInfo :=
  { function_info with label := some (labelOf binary_path) }

/-- `AutoLabeler.label_batch`: labels every function from one binary,
working on independent copies. -/
def label_batch (functions : List FuncInfo) (binary_path : Str) : List FuncInfo :=
  functions.map (fun func => label_function binary_path func)

/-! ## CrossCompiler (dataset_builder/compiler/cross_compiler.py) -/

/-- One entry of `CrossCompiler.ARCHITECTURES`. -/
structure ArchConfig where
  cc : Str
  cflags : Str
  triplet : Str
  description : Str
  deriving DecidableEq, Repr

/-- The static architecture catalog `CrossCompiler.ARCHITECTURES`, in its
declared order. -/
def ARCHITECTURES : List (Str × ArchConfig) :=
  [ ("x86".toList,
      ⟨"gcc".toList, "-m32".toList, "i686-linux-gnu".toList,
        "Intel x86 32-bit".toList⟩),
    ("x86-64".toList,
      ⟨"gcc".toList, "-m64".toList, "x86_64-linux-gnu".toList,
        "Intel x86 64-bit".toList⟩),
    ("arm".toList,
      ⟨"arm-linux-gnueabi-gcc".toList, [], "arm-linux-gnueabi".toList,
        "ARM 32-bit".toList⟩),
    ("aarch64".toList,
      ⟨"aarch64-linux-gnu-gcc".toList, [], "aarch64-linux-gnu".toList,
        "ARM 64-bit (AArch64)".toList⟩),
    ("mips".toList,
      ⟨"mips-linux-gnu-gcc".toList, [], "mips-linux-gnu".toList,
        "MIPS 32-bit".toList⟩),
    ("riscv".toList,
      ⟨"riscv64-linux-gnu-gcc".toList, [], "riscv64-linux-gnu".toList,
        "RISC-V 64-bit".toList⟩) ]

/-- `CrossCompiler.OPTIMIZATION_LEVELS` in declared order. -/
def OPTIMIZATION_LEVELS : List Str :=
  [ "-O0".toList, "-O1".toList, "-O2".toList, "-O3".toList, "-Os".toList ]

/-- Outcome of one `subprocess.run` of a compiler command: normal exit with
a return code, a `TimeoutExpired`, or some other exception. -/
inductive ProcResult where
  | exited (code : Int)
  | timedOut
  | raised
  deriving DecidableEq, Repr

/-- `CrossCompiler.compile_file`. `available_archs` stands for
`self.available_archs`; `run` is the oracle for `subprocess.run` on the
assembled command. Returns the success boolean paired with the list of
commands actually spawned; an `Except.error` models an uncaught Python
exception (none is reachable, but the dictionary lookup is kept explicit). -/
def compile_file (available_archs : List Str) (run : List Str → ProcResult)
    (source_file output_file architecture optimization compiler : Str)
    (extra_flags : List Str) : Except Str (Bool × List (List Str)) :=
  if ¬ architecture ∈ available_archs then
    .ok (false, [])
  else
    match ARCHITECTURES.find? (fun kv => kv.1 = architecture) with
    | none => .error "KeyError".toList
    | some kv =>
      let arch_config := kv.2
      let defaultCC := arch_config.cc
      let clangCase :=
        compiler = "clang".toList ∧
          (architecture = "x86".toList ∨ architecture = "x86-64".toList)
      let cc := if clangCase then "clang".toList else defaultCC
      let target_flag : Str :=
        if clangCase then
          if architecture = "x86".toList then "--target=i686-linux-gnu".toList
          else "--target=x86_64-linux-gnu".toList
        else []
      let flags :=
        [ optimization, arch_config.cflags, target_flag,
          "-static".toList, "-fno-stack-protector".toList,
          "-o".toList, output_file, source_file ] ++ extra_flags
      let flags := flags.filter (fun f => ¬ f.isEmpty)
      let cmd := cc :: flags
      match run cmd with
      | .exited 0 => .ok (true, [cmd])
      | _ => .ok (false, [cmd])

/-- The output filename generated inside `CrossCompiler.compile_library`:
`LIBRARY_FUNCTION_ARCH_OPTCLEAN.bin` where OPTCLEAN is the optimization
level with dashes removed, lower-cased. -/
def outputName (library_name func_name arch opt : Str) : Str :=
  library_name ++ '_' :: func_name ++ '_' :: arch ++ '_' ::
    lower (removeChar '-' opt) ++ ".bin".toList

/-- `DatasetCompiler._get_crypto_functions`: the static per-library function
catalog; unknown libraries yield the empty list. -/
def get_crypto_functions (library : Str) : List Str :=
  let function_map : List (Str × List Str) :=
    [ ("openssl".toList,
        [ "AES_encrypt".toList, "AES_decrypt".toList,
          "AES_set_encrypt_key".toList,
          "RSA_public_encrypt".toList, "RSA_private_decrypt".toList,
          "SHA256_Init".toList, "SHA256_Update".toList, "SHA256_Final".toList,
          "SHA1_Init".toList, "SHA1_Update".toList, "SHA1_Final".toList,
          "MD5_Init".toList, "MD5_Update".toList, "MD5_Final".toList,
          "DES_encrypt1".toList, "DES_decrypt1".toList,
          "HMAC".toList, "HMAC_Init".toList, "HMAC_Update".toList,
          "HMAC_Final".toList ]),
      ("mbedtls".toList,
        [ "mbedtls_aes_encrypt".toList, "mbedtls_aes_decrypt".toList,
          "mbedtls_rsa_public".toList, "mbedtls_rsa_private".toList,
          "mbedtls_sha256".toList, "mbedtls_sha1".toList,
          "mbedtls_md5".toList,
          "mbedtls_des_crypt_ecb".toList, "mbedtls_des3_crypt_ecb".toList ]),
      ("libsodium".toList,
        [ "crypto_secretbox_easy".toList, "crypto_secretbox_open_easy".toList,
          "crypto_box_easy".toList, "crypto_box_open_easy".toList,
          "crypto_sign".toList, "crypto_sign_open".toList,
          "crypto_hash_sha256".toList, "crypto_hash_sha512".toList ]) ]
  match function_map.find? (fun kv => kv.1 = library) with
  | some kv => kv.2
  | none => []

/-! ## LibraryManager (dataset_builder/compiler/library_manager.py) -/

/-- Python `pathlib.Path(p).suffix`: the last dot-extension of the final
component, empty when the only dot is at position 0 or at the very end. -/
def suffix (p : Str) : Str :=
  let n := basename p
  match lastIdxOf '.' n with
  | some i => if 0 < i ∧ i + 1 < n.length then n.drop i else []
  | none => []

/-- External-world oracles: what `tarfile`/`zipfile` extraction of a given
archive does (the paths it creates under the cache root, or the exception
it raises), and what `CrossCompiler.compile_library` returns for a library
(its per-cell result keys; it catches all per-cell failures internally and
never raises). -/
structure World where
  tarExtract : Str → Except Str (List Str)
  zipExtract : Str → Except Str (List Str)
  compileLib : Str → Str → List Str → List Str

/-- Creation of a path in the modelled filesystem: a no-op when the path
already exists. -/
def finsert (a : Str) (l : List Str) : List Str :=
  if a ∈ l then l else a :: l

/-- Deletion (unlink) of a path in the modelled filesystem. -/
def ferase (a : Str) : List Str → List Str
  | [] => []
  | b :: t => if b = a then t else b :: ferase a t

/-- Filesystem-and-network state threaded through acquisition: the set of
existing paths (kept duplicate-free via `finsert`) and the count of
downloads performed. -/
structure St where
  files : List Str
  downloads : Nat
  deriving DecidableEq, Repr

/-- `LibraryManager._extract_archive`: gzip-tar for a `.gz` suffix (the
`suffixes == [.tar, .gz]` disjunct of the source is subsumed, since such a
path already has suffix `.gz`), zip for `.zip`, otherwise a `ValueError`. -/
def extract_archive (w : World) (archive_path : Str) : Except Str (List Str) :=
  if suffix archive_path = ".gz".toList then w.tarExtract archive_path
  else if suffix archive_path = ".zip".toList then w.zipExtract archive_path
  else .error ("Unsupported archive format: ".toList ++ suffix archive_path)

/-- The path the downloaded archive is written to: the sources dir joined
with the last URL segment. -/
def archivePathOf (sources_dir url : Str) : Str :=
  sources_dir ++ '/' :: (split '/' url).getLastD []

/-- `LibraryManager._download_file`: the file named by the last URL segment
is written under the sources dir; returns its path and the updated state
(one more download, the archive file now existing). -/
def download_file (sources_dir : Str) (st : St) (url : Str) : Str × St :=
  (archivePathOf sources_dir url,
    { files := finsert (archivePathOf sources_dir url) st.files,
      downloads := st.downloads + 1 })

/-- The identity-derived cache path used by `LibraryManager.get_library`. -/
def libDir (sources_dir name : Str) (version : Option Str) : Str :=
  match version with
  | some v => sources_dir ++ '/' :: name ++ '-' :: v
  | none => sources_dir ++ '/' :: name

/-- `LibraryManager.get_library`: cache hit returns the existing tree
unchanged; otherwise a URL is required, the archive is downloaded and
extracted, and the archive file is unlinked after a successful extraction.
The result is the returned path or the uncaught exception, paired with the
final state. -/
def get_library (w : World) (sources_dir : Str) (st : St)
    (name : Str) (version : Option Str) (url : Option Str) :
    Except Str Str × St :=
  let lib_dir := libDir sources_dir name version
  if lib_dir ∈ st.files then
    (.ok lib_dir, st)
  else
    match url with
    | some u =>
      let dl := download_file sources_dir st u
      let archive_path := dl.1
      let st1 := dl.2
      match extract_archive w archive_path with
      | .error e => (.error e, st1)
      | .ok created =>
        let st2 : St :=
          { files := ferase archive_path
              (created.foldl (fun fs p => finsert p fs) st1.files),
            downloads := st1.downloads }
        (.ok lib_dir, st2)
    | none =>
      (.error ("Library ".toList ++ name ++
        " not found and no URL provided".toList), st)

/-! ## DatasetCompiler.compile_all (dataset_builder/compiler/cross_compiler.py) -/

/-- One entry of the configured `crypto_libraries` list. -/
structure LibConfig where
  name : Str
  version : Option Str
  url : Option Str
  deriving DecidableEq, Repr

/-- The per-library loop body of `DatasetCompiler.compile_all`, accumulating
the per-library results. The loop carries no exception handler, so an
acquisition failure propagates immediately. -/
def compile_all_go (w : World) (sources_dir : Str) :
    List LibConfig → St → List (Str × List Str) →
    Except Str (List (Str × List Str)) × St
  | [], st, acc => (.ok acc.reverse, st)
  | lib :: rest, st, acc =>
    match get_library w sources_dir st lib.name lib.version lib.url with
    | (.error e, st1) => (.error e, st1)
    | (.ok source_dir, st1) =>
      let functions := get_crypto_functions lib.name
      let results := w.compileLib lib.name source_dir functions
      compile_all_go w sources_dir rest st1 ((lib.name, results) :: acc)

/-- `DatasetCompiler.compile_all`: processes the configured libraries in
order, acquiring each source tree and compiling its function list; returns
the consolidated per-library results, or the first uncaught exception. -/
def compile_all (w : World) (sources_dir : Str) (st : St)
    (libraries : List LibConfig) :
    Except Str (List (Str × List Str)) × St :=
  compile_all_go w sources_dir libraries st []

/-! ## FunctionExtractor (dataset_builder/extraction/function_extractor.py) -/

/-- Value of one digit character in the given base, if valid. -/
def digitVal (base : Nat) (c : Char) : Option Nat :=
  let v : Option Nat :=
    if '0' ≤ c ∧ c ≤ '9' then some (c.toNat - 48)
    else if 'a' ≤ c ∧ c ≤ 'f' then some (c.toNat - 87)
    else if 'A' ≤ c ∧ c ≤ 'F' then some (c.toNat - 55)
    else none
  match v with
  | some d => if d < base then some d else none
  | none => none

/-- Digits-only part of Python `int(s, base)`: at least one digit, all
valid in the base. -/
def parseNatBase (base : Nat) : Str → Option Nat
  | [] => none
  | l =>
    l.foldl
      (fun acc c =>
        match acc, digitVal base c with
        | some a, some d => some (a * base + d)
        | _, _ => none)
      (some 0)

/-- Python `int(s, 16)`: optional sign, optional 0x prefix, hex digits. -/
def parseInt16 (s : Str) : Option Int :=
  let noSign : Str → Option Nat := fun t =>
    match t with
    | '0' :: 'x' :: rest => parseNatBase 16 rest
    | '0' :: 'X' :: rest => parseNatBase 16 rest
    | _ => parseNatBase 16 t
  match s with
  | '-' :: rest => (noSign rest).map (fun n => -(n : Int))
  | '+' :: rest => (noSign rest).map (fun n => (n : Int))
  | _ => (noSign s).map (fun n => (n : Int))

/-- Python `int(s)`: optional sign, decimal digits. -/
def parseInt10 (s : Str) : Option Int :=
  match s with
  | '-' :: rest => (parseNatBase 10 rest).map (fun n => -(n : Int))
  | '+' :: rest => (parseNatBase 10 rest).map (fun n => (n : Int))
  | _ => (parseNatBase 10 s).map (fun n => (n : Int))

/-- Lower-case hex digit for a value below 16. -/
def hexDigit (n : Nat) : Char :=
  if n < 10 then Char.ofNat (48 + n) else Char.ofNat (87 + n)

/-- Fuel-driven helper for `hexStr`. -/
def hexStrAux : Nat → Nat → Str
  | 0, _ => []
  | fuel + 1, n =>
    if n = 0 then [] else hexStrAux fuel (n / 16) ++ [hexDigit (n % 16)]

/-- Python format specifier `x` on a natural number: lower-case hex digits,
no prefix, and 0 prints as 0. -/
def hexStr (n : Nat) : Str :=
  if n = 0 then ['0'] else hexStrAux (n + 1) n

/-- One extracted function record: the dict built by `FunctionExtractor`
with keys address, size, name, source. -/
structure ExtractedFunction where
  address : Int
  size : Int
  name : Str
  source : Str
  deriving DecidableEq, Repr

/-- The fixed 3-byte x86 prologue signature scanned for by
`FunctionExtractor._extract_heuristic` (push ebp; mov ebp, esp). -/
def PROLOGUE : List Nat := [0x55, 0x89, 0xe5]

/-- All offsets at which the pattern occurs in the data, in increasing
order: the offsets recorded by the `data.find(pattern, offset)` loop that
restarts one byte after each match (overlapping matches included). -/
def scanOffsets (pat : List Nat) : List Nat → Nat → List Nat
  | [], _ => []
  | d :: t, i =>
    (if pat.isPrefixOf (d :: t) then [i] else []) ++ scanOffsets pat t (i + 1)

/-- `FunctionExtractor._extract_heuristic` on the bytes actually read: one
record per prologue-pattern match, at the match offset, with size 0 and a
synthesized `sub_OFFSET` name, provenance heuristic. -/
def extract_heuristic_bytes (data : List Nat) : List ExtractedFunction :=
  (scanOffsets PROLOGUE data 0).map
    (fun offset =>
      { address := Int.ofNat offset, size := 0,
        name := "sub_".toList ++ hexStr offset,
        source := "heuristic".toList })

/-- The external environment of one `extract_all` call: whether readelf is
on the PATH, the outcome of running it (return code and stdout, or none
when the invocation raised), and the bytes of the binary (none when the
read raised). -/
structure ExtractEnv where
  readelf_available : Bool
  readelf : Option (Int × Str)
  binary : Option (List Nat)

/-- The parsing of one readelf output line inside
`FunctionExtractor._extract_from_symbols`: lines containing FUNC with at
least eight whitespace-separated fields contribute a record with the hex
address from field 1, the decimal size from field 2 and the name from
field 7; conversion failures skip the line. -/
def parseSymLine (line : Str) : Option ExtractedFunction :=
  if containsSub line "FUNC".toList then
    let parts := splitWs line
    if 8 ≤ parts.length then
      match parseInt16 (parts.getD 1 []), parseInt10 (parts.getD 2 []) with
      | some address, some size =>
        some { address := address, size := size, name := parts.getD 7 [],
               source := "symbol".toList }
      | _, _ => none
    else none
  else none

/-- `FunctionExtractor._extract_from_symbols`: empty when readelf is
missing, raised, or exited non-zero; otherwise the parsed FUNC lines of
its stdout. -/
def extract_from_symbols (env : ExtractEnv) : List ExtractedFunction :=
  if ¬ env.readelf_available then []
  else
    match env.readelf with
    | none => []
    | some out =>
      if ¬ out.1 = 0 then []
      else (split '\n' out.2).filterMap parseSymLine

/-- `FunctionExtractor._extract_heuristic` including its exception handler:
a failed read degrades to the empty list. -/
def extract_heuristic (env : ExtractEnv) : List ExtractedFunction :=
  match env.binary with
  | none => []
  | some data => extract_heuristic_bytes data

/-- `FunctionExtractor.extract_all`: symbol functions when any were found,
otherwise the heuristic scan. -/
def extract_all (env : ExtractEnv) : List ExtractedFunction :=
  let symbol_functions := extract_from_symbols env
  if symbol_functions.isEmpty then extract_heuristic env
  else symbol_functions

/-! ## Helper lemmas -/

/-- find? returns the marked element when everything before it fails the
predicate and it passes. -/
theorem find?_append_cons {α : Type} (p : α → Bool) (pre post : List α)
    (x : α) (hpre : ∀ y ∈ pre, p y = false) (hx : p x = true) :
    List.find? p (pre ++ x :: post) = some x := by
  induction pre with
  | nil => exact List.find?_cons_of_pos post hx
  | cons a t ih =>
    have ha : p a = false := hpre a (List.mem_cons_self a t)
    have ht : ∀ y ∈ t, p y = false :=
      fun y hy => hpre y (List.mem_cons_of_mem a hy)
    rw [List.cons_append, List.find?_cons_of_neg _ (by simp [ha])]
    exact ih ht

/-- Membership is preserved by `finsert`. -/
theorem mem_finsert_of_mem {a b : Str} {l : List Str} (h : a ∈ l) :
    a ∈ finsert b l := by
  unfold finsert
  split
  · exact h
  · exact List.mem_cons_of_mem b h

/-- The inserted element is a member of `finsert`. -/
theorem mem_finsert_self (a : Str) (l : List Str) : a ∈ finsert a l := by
  unfold finsert
  split
  · assumption
  · exact List.mem_cons_self a l

/-- `finsert` preserves duplicate-freedom. -/
theorem nodup_finsert (a : Str) {l : List Str} (h : l.Nodup) :
    (finsert a l).Nodup := by
  unfold finsert
  split
  · exact h
  · exact List.nodup_cons.mpr ⟨by assumption, h⟩

/-- Membership in an initial accumulator survives a fold of `finsert`. -/
theorem mem_foldl_finsert_init {a : Str} :
    ∀ (l : List Str) (init : List Str), a ∈ init →
      a ∈ l.foldl (fun fs p => finsert p fs) init
  | [], _, h => h
  | b :: t, init, h =>
    mem_foldl_finsert_init t (finsert b init) (mem_finsert_of_mem h)

/-- Every folded-in element is a member of the fold of `finsert`. -/
theorem mem_foldl_finsert_of_mem {a : Str} :
    ∀ (l : List Str) (init : List Str), a ∈ l →
      a ∈ l.foldl (fun fs p => finsert p fs) init
  | b :: t, init, h => by
    rcases List.mem_cons.mp h with h1 | h2
    · subst h1
      exact mem_foldl_finsert_init t (finsert a init) (mem_finsert_self a init)
    · exact mem_foldl_finsert_of_mem t (finsert b init) h2

/-- A fold of `finsert` preserves duplicate-freedom. -/
theorem nodup_foldl_finsert :
    ∀ (l : List Str) (init : List Str), init.Nodup →
      (l.foldl (fun fs p => finsert p fs) init).Nodup
  | [], _, h => h
  | b :: t, init, h => nodup_foldl_finsert t (finsert b init) (nodup_finsert b h)

/-- Membership in `ferase` for a distinct element. -/
theorem mem_ferase_of_ne {a b : Str} (hab : ¬ a = b) :
    ∀ {l : List Str}, a ∈ l → a ∈ ferase b l
  | c :: t, h => by
    rcases List.mem_cons.mp h with h1 | h2
    · subst h1
      unfold ferase
      rw [if_neg hab]
      exact List.mem_cons_self a (ferase b t)
    · unfold ferase
      split
      · exact h2
      · exact List.mem_cons_of_mem c (mem_ferase_of_ne hab h2)

/-- Erasing an element from a duplicate-free list removes it entirely. -/
theorem not_mem_ferase_self {a : Str} :
    ∀ {l : List Str}, l.Nodup → ¬ a ∈ ferase a l
  | [], _ => by simp [ferase]
  | c :: t, h => by
    have hct := List.nodup_cons.mp h
    unfold ferase
    split
    · intro hmem
      have : c = a := by assumption
      subst this
      exact hct.1 hmem
    · intro hmem
      rcases List.mem_cons.mp hmem with h1 | h2
      · subst h1
        exact (by assumption : ¬ a = a) rfl
      · exact not_mem_ferase_self hct.2 h2

/-! ## Claim theorems -/

/-- Claim C5: algorithm detection lower-cases the function name and returns
the value of the first catalog key in declared order that is a substring of
it; in particular hmac_sha256_init resolves to SHA-256 (the sha256 entry),
not to the co-occurring broader hmac entry. -/
theorem detect_algorithm_first_match :
    detect_algorithm "hmac_sha256_init".toList = "SHA-256".toList ∧
    ∀ (name : Str) (pre : List (Str × Str)) (k v : Str)
      (post : List (Str × Str)),
      ALGORITHM_MAP = pre ++ (k, v) :: post →
      (∀ p ∈ pre, containsSub (lower name) p.1 = false) →
      containsSub (lower name) k = true →
      detect_algorithm name = v := by
  refine ⟨by decide, ?_⟩
  intro name pre k v post hmap hpre hk
  unfold detect_algorithm
  rw [hmap, find?_append_cons (fun kv => containsSub (lower name) kv.1) pre post
    (k, v) (fun y hy => hpre y hy) hk]

/-- Witness for C5: instantiates the first-match theorem at the
hmac_sha256_init input with the sha256 entry, whose fourteen predecessors in
the catalog all fail to match. -/
theorem detect_algorithm_first_match_witness :
    detect_algorithm "hmac_sha256_init".toList = "SHA-256".toList :=
  detect_algorithm_first_match.2 "hmac_sha256_init".toList
    (ALGORITHM_MAP.take 14) "sha256".toList "SHA-256".toList
    (ALGORITHM_MAP.drop 15) (by decide) (by decide) (by decide)

/-- Claim C6: a binary whose filename stem has fewer than four
underscore-delimited fields is labeled Unknown and non-crypto; one with four
or more fields is labeled is_crypto true, whatever the algorithm lookup
returns. -/
theorem label_field_count_boundary (binary_path : Str) :
    ((split '_' (stem binary_path)).length < 4 →
      labelOf binary_path = .unknownFormat ∧
      (labelOf binary_path).algorithm = "Unknown".toList ∧
      (labelOf binary_path).is_crypto = false) ∧
    (4 ≤ (split '_' (stem binary_path)).length →
      (labelOf binary_path).is_crypto = true) := by
  constructor
  · intro h
    have hn : ¬ 4 ≤ (split '_' (stem binary_path)).length := by omega
    simp [labelOf, hn, Label.algorithm, Label.is_crypto]
  · intro h
    simp [labelOf, h, Label.is_crypto]

/-- Witness for C6: a three-field stem yields the Unknown label and a
four-field stem yields is_crypto true. -/
theorem label_field_count_boundary_witness :
    labelOf "openssl_aes_x86.bin".toList = .unknownFormat ∧
    (labelOf "openssl_aes_x86_o2.bin".toList).is_crypto = true :=
  ⟨((label_field_count_boundary "openssl_aes_x86.bin".toList).1 (by decide)).1,
    (label_field_count_boundary "openssl_aes_x86_o2.bin".toList).2 (by decide)⟩

/-- Claim C10: the label value depends only on the binary path, never on the
function metadata, and every function labeled from one binary by
label_batch receives that identical label. -/
theorem label_depends_only_on_binary_path
    (binary_path : Str) (f1 f2 : FuncInfo) (functions : List FuncInfo) :
    (label_function binary_path f1).label = (label_function binary_path f2).label ∧
    (label_batch functions binary_path).map FuncInfo.label =
      functions.map (fun _ => some (labelOf binary_path)) := by
  refine ⟨rfl, ?_⟩
  unfold label_batch
  rw [List.map_map]
  rfl

/-- Claim C1 (refuted, code bug): compiling the configured openssl function
AES_encrypt for x86-64 at -O0 produces the binary name
openssl_AES_encrypt_x86-64_o0.bin, and labeling it yields architecture
encrypt and optimization x86-64 instead of the compilation unit fields
x86-64 and o0: the underscore inside the function name shifts every later
field. -/
theorem label_misparses_underscored_function_name :
    "AES_encrypt".toList ∈ get_crypto_functions "openssl".toList ∧
    outputName "openssl".toList "AES_encrypt".toList "x86-64".toList
      "-O0".toList = "openssl_AES_encrypt_x86-64_o0.bin".toList ∧
    labelOf "openssl_AES_encrypt_x86-64_o0.bin".toList =
      .crypto "AES".toList "openssl".toList "encrypt".toList
        "x86-64".toList "AES".toList ∧
    ¬ (labelOf "openssl_AES_encrypt_x86-64_o0.bin".toList).architecture =
        some "x86-64".toList ∧
    ¬ (labelOf "openssl_AES_encrypt_x86-64_o0.bin".toList).optimization =
        some "o0".toList := by
  refine ⟨by decide, by decide, by decide, by decide, by decide⟩

/-- Claim C3 counterexample: extracting a stripped binary whose bytes are
exactly one x86 prologue yields a heuristic-provenance record whose size
field is the plain numeric value 0, the very value the claim says is never
used for an undetermined size (the record type carries no distinct unknown
marker at all). -/
theorem heuristic_size_zero_cex :
    extract_all ⟨true, some (0, []), some [0x55, 0x89, 0xe5]⟩ =
      [⟨0, 0, "sub_0".toList, "heuristic".toList⟩] ∧
    (extract_all ⟨true, some (0, []), some [0x55, 0x89, 0xe5]⟩).map
      ExtractedFunction.size = [0] := by
  refine ⟨by decide, by decide⟩

/-- Every line accepted by the readelf parser yields a record with
provenance symbol. -/
theorem parseSymLine_source {line : Str} {f : ExtractedFunction}
    (hline : parseSymLine line = some f) : f.source = "symbol".toList := by
  simp only [parseSymLine] at hline
  split at hline
  · split at hline
    · split at hline
      · rw [Option.some_inj] at hline
        rw [← hline]
      · exact absurd hline (by simp)
    · exact absurd hline (by simp)
  · exact absurd hline (by simp)

/-- Every function parsed out of readelf output carries provenance symbol. -/
theorem extract_from_symbols_source (env : ExtractEnv) (f : ExtractedFunction)
    (hf : f ∈ extract_from_symbols env) : f.source = "symbol".toList := by
  obtain ⟨ra, re, bin⟩ := env
  unfold extract_from_symbols at hf
  cases ra with
  | false => simp at hf
  | true =>
    rw [if_neg (by simp)] at hf
    cases re with
    | none => simp at hf
    | some out =>
      by_cases hrc : out.1 = 0
      · rw [show (match some out with
            | none => ([] : List ExtractedFunction)
            | some out =>
              if ¬ out.1 = 0 then []
              else List.filterMap parseSymLine (split '\n' out.2)) =
            List.filterMap parseSymLine (split '\n' out.2) by
          simp [hrc]] at hf
        rcases List.mem_filterMap.mp hf with ⟨line, _, hline⟩
        exact parseSymLine_source hline
      · rw [show (match some out with
            | none => ([] : List ExtractedFunction)
            | some out =>
              if ¬ out.1 = 0 then []
              else List.filterMap parseSymLine (split '\n' out.2)) =
            ([] : List ExtractedFunction) by simp [hrc]] at hf
        simp at hf

/-- Claim C3 as amended: every heuristic-provenance function record carries
the numeric size 0; zero is the (overloaded) marker for an undetermined
size, and no distinct unknown marker exists. -/
theorem heuristic_size_is_zero (env : ExtractEnv) (f : ExtractedFunction)
    (hf : f ∈ extract_all env) (hs : f.source = "heuristic".toList) :
    f.size = 0 := by
  unfold extract_all at hf
  by_cases h : (extract_from_symbols env).isEmpty
  · rw [if_pos h] at hf
    unfold extract_heuristic at hf
    rcases henv : env.binary with _ | data
    · rw [henv] at hf
      simp at hf
    · rw [henv] at hf
      unfold extract_heuristic_bytes at hf
      rcases List.mem_map.mp hf with ⟨offset, _, hofs⟩
      rw [← hofs]
  · rw [if_neg h] at hf
    have hsym := extract_from_symbols_source env f hf
    rw [hsym] at hs
    exact absurd hs (by decide)

/-- Witness for the amended C3: the single heuristic record extracted from a
one-prologue binary has size 0. -/
theorem heuristic_size_is_zero_witness :
    (⟨0, 0, "sub_0".toList, "heuristic".toList⟩ : ExtractedFunction).size = 0 :=
  heuristic_size_is_zero ⟨true, some (0, []), some [0x55, 0x89, 0xe5]⟩
    ⟨0, 0, "sub_0".toList, "heuristic".toList⟩ (by decide) (by decide)

/-- Claim C4: when symbol-table extraction yields at least one function,
extract_all returns exactly those symbol-provenance functions; the heuristic
path contributes nothing and no entry has provenance heuristic, whatever the
raw bytes contain. -/
theorem symbols_preclude_heuristic (env : ExtractEnv)
    (h : ¬ extract_from_symbols env = []) :
    extract_all env = extract_from_symbols env ∧
    ∀ f ∈ extract_all env, f.source = "symbol".toList ∧
      ¬ f.source = "heuristic".toList := by
  have hne : ¬ (extract_from_symbols env).isEmpty := by
    simpa [List.isEmpty_iff] using h
  have hall : extract_all env = extract_from_symbols env := by
    unfold extract_all
    rw [if_neg hne]
  refine ⟨hall, ?_⟩
  intro f hf
  rw [hall] at hf
  have hs := extract_from_symbols_source env f hf
  exact ⟨hs, by rw [hs]; decide⟩

/-- Witness for C4: a binary whose readelf output lists one FUNC entry and
whose bytes also contain the heuristic prologue pattern is extracted purely
from symbols. -/
theorem symbols_preclude_heuristic_witness :
    extract_all
        ⟨true,
          some (0,
            "     1: 000000000000a2f0   120 FUNC  GLOBAL DEFAULT 14 AES_encrypt".toList),
          some [0x55, 0x89, 0xe5]⟩ =
      extract_from_symbols
        ⟨true,
          some (0,
            "     1: 000000000000a2f0   120 FUNC  GLOBAL DEFAULT 14 AES_encrypt".toList),
          some [0x55, 0x89, 0xe5]⟩ :=
  (symbols_preclude_heuristic
    ⟨true,
      some (0,
        "     1: 000000000000a2f0   120 FUNC  GLOBAL DEFAULT 14 AES_encrypt".toList),
      some [0x55, 0x89, 0xe5]⟩ (by decide)).1

/-- Claim C7: for an architecture outside the available set, compile_file
returns false, spawns no compiler subprocess, and raises nothing. -/
theorem compile_file_unavailable_arch (available_archs : List Str)
    (run : List Str → ProcResult)
    (source_file output_file architecture optimization compiler : Str)
    (extra_flags : List Str) (h : ¬ architecture ∈ available_archs) :
    compile_file available_archs run source_file output_file architecture
      optimization compiler extra_flags = .ok (false, []) := by
  unfold compile_file
  rw [if_pos (by simp [h])]

/-- Witness for C7: the sparc architecture is not in an x86-64-only
available set, so compilation refuses it without running anything. -/
theorem compile_file_unavailable_arch_witness :
    compile_file ["x86-64".toList] (fun _ => .exited 0) "aes.c".toList
      "out.bin".toList "sparc".toList "-O2".toList "gcc".toList [] =
      .ok (false, []) :=
  compile_file_unavailable_arch ["x86-64".toList] (fun _ => .exited 0)
    "aes.c".toList "out.bin".toList "sparc".toList "-O2".toList
    "gcc".toList [] (by decide)

/-- Claim C2 counterexample: with a config of two libraries where the first
has neither a cached tree nor a URL and the second is perfectly buildable
(its tree is cached), compile_all on the second library alone succeeds, yet
compile_all on the full list aborts with the acquisition error of the first
and never touches the second: the run fails although a buildable library
exists. -/
theorem compile_all_aborts_on_first_failure_cex :
    (compile_all
        ⟨fun _ => .error [], fun _ => .error [],
          fun _ _ _ => ["cell".toList]⟩
        "sources".toList ⟨["sources/openssl".toList], 0⟩
        [⟨"openssl".toList, none, none⟩]).1 =
      .ok [("openssl".toList, ["cell".toList])] ∧
    compile_all
        ⟨fun _ => .error [], fun _ => .error [],
          fun _ _ _ => ["cell".toList]⟩
        "sources".toList ⟨["sources/openssl".toList], 0⟩
        [⟨"badlib".toList, none, none⟩, ⟨"openssl".toList, none, none⟩] =
      (.error "Library badlib not found and no URL provided".toList,
        ⟨["sources/openssl".toList], 0⟩) :=
  ⟨rfl, rfl⟩

/-- Claim C2 as amended: compile_all carries no per-library exception
handler; when a library at the head of the remaining config fails source
acquisition, the acquisition error propagates out of compile_all at once,
with the state left as the failed acquisition left it and every subsequent
library unprocessed, however many buildable libraries follow. -/
theorem compile_all_error_propagates (w : World) (sources_dir : Str) (st : St)
    (lib : LibConfig) (rest : List LibConfig) (e : Str) (st1 : St)
    (h : get_library w sources_dir st lib.name lib.version lib.url =
      (.error e, st1)) :
    compile_all w sources_dir st (lib :: rest) = (.error e, st1) := by
  unfold compile_all compile_all_go
  rw [h]

/-- Witness for the amended C2: a library with no cache and no URL at the
head of a two-library config aborts the whole run with its acquisition
error. -/
theorem compile_all_error_propagates_witness :
    compile_all
        ⟨fun _ => .error [], fun _ => .error [],
          fun _ _ _ => ["cell".toList]⟩
        "sources".toList ⟨["sources/openssl".toList], 0⟩
        [⟨"badlib".toList, none, none⟩, ⟨"openssl".toList, none, none⟩] =
      (.error "Library badlib not found and no URL provided".toList,
        ⟨["sources/openssl".toList], 0⟩) :=
  compile_all_error_propagates
    ⟨fun _ => .error [], fun _ => .error [], fun _ _ _ => ["cell".toList]⟩
    "sources".toList ⟨["sources/openssl".toList], 0⟩
    ⟨"badlib".toList, none, none⟩ [⟨"openssl".toList, none, none⟩]
    "Library badlib not found and no URL provided".toList
    ⟨["sources/openssl".toList], 0⟩ rfl

/-- Claim C8: acquisition is idempotent per identity. With no cached tree,
the first call performs exactly one download and returns the cache path;
provided the archive extraction creates that path, the second identical
call returns the same path with the state untouched: no second fetch and no
modification of the cached tree. -/
theorem acquire_idempotent (w : World) (sources_dir : Str) (st : St)
    (name : Str) (version : Option Str) (u : Str) (created : List Str)
    (h1 : ¬ libDir sources_dir name version ∈ st.files)
    (h2 : extract_archive w (archivePathOf sources_dir u) = .ok created)
    (h3 : libDir sources_dir name version ∈ created)
    (h4 : ¬ libDir sources_dir name version = archivePathOf sources_dir u) :
    (get_library w sources_dir st name version (some u)).1 =
      .ok (libDir sources_dir name version) ∧
    (get_library w sources_dir st name version (some u)).2.downloads =
      st.downloads + 1 ∧
    get_library w sources_dir
        (get_library w sources_dir st name version (some u)).2
        name version (some u) =
      ((get_library w sources_dir st name version (some u)).1,
        (get_library w sources_dir st name version (some u)).2) := by
  have hfirst : get_library w sources_dir st name version (some u) =
      (.ok (libDir sources_dir name version),
        ⟨ferase (archivePathOf sources_dir u)
          (created.foldl (fun fs p => finsert p fs)
            (finsert (archivePathOf sources_dir u) st.files)),
          st.downloads + 1⟩) := by
    simp [get_library, download_file, h1, h2]
  have hmem2 : libDir sources_dir name version ∈
      ferase (archivePathOf sources_dir u)
        (created.foldl (fun fs p => finsert p fs)
          (finsert (archivePathOf sources_dir u) st.files)) :=
    mem_ferase_of_ne h4
      (mem_foldl_finsert_of_mem created
        (finsert (archivePathOf sources_dir u) st.files) h3)
  refine ⟨by rw [hfirst], by rw [hfirst], ?_⟩
  rw [hfirst]
  simp [get_library, hmem2]

/-- Witness for C8: acquiring zlib 1.3 from a tarball whose extraction
creates the cache tree downloads once, and the repeated call is a pure
cache hit. -/
theorem acquire_idempotent_witness :
    (get_library
        ⟨fun _ => .ok ["sources/zlib-1.3".toList], fun _ => .error [],
          fun _ _ _ => []⟩
        "sources".toList ⟨[], 0⟩ "zlib".toList (some "1.3".toList)
        (some "http://example.org/zlib-1.3.tar.gz".toList)).1 =
      .ok (libDir "sources".toList "zlib".toList (some "1.3".toList)) ∧
    (get_library
        ⟨fun _ => .ok ["sources/zlib-1.3".toList], fun _ => .error [],
          fun _ _ _ => []⟩
        "sources".toList ⟨[], 0⟩ "zlib".toList (some "1.3".toList)
        (some "http://example.org/zlib-1.3.tar.gz".toList)).2.downloads =
      0 + 1 ∧
    get_library
        ⟨fun _ => .ok ["sources/zlib-1.3".toList], fun _ => .error [],
          fun _ _ _ => []⟩
        "sources".toList
        (get_library
          ⟨fun _ => .ok ["sources/zlib-1.3".toList], fun _ => .error [],
            fun _ _ _ => []⟩
          "sources".toList ⟨[], 0⟩ "zlib".toList (some "1.3".toList)
          (some "http://example.org/zlib-1.3.tar.gz".toList)).2
        "zlib".toList (some "1.3".toList)
        (some "http://example.org/zlib-1.3.tar.gz".toList) =
      ((get_library
          ⟨fun _ => .ok ["sources/zlib-1.3".toList], fun _ => .error [],
            fun _ _ _ => []⟩
          "sources".toList ⟨[], 0⟩ "zlib".toList (some "1.3".toList)
          (some "http://example.org/zlib-1.3.tar.gz".toList)).1,
        (get_library
          ⟨fun _ => .ok ["sources/zlib-1.3".toList], fun _ => .error [],
            fun _ _ _ => []⟩
          "sources".toList ⟨[], 0⟩ "zlib".toList (some "1.3".toList)
          (some "http://example.org/zlib-1.3.tar.gz".toList)).2) :=
  acquire_idempotent
    ⟨fun _ => .ok ["sources/zlib-1.3".toList], fun _ => .error [],
      fun _ _ _ => []⟩
    "sources".toList ⟨[], 0⟩ "zlib".toList (some "1.3".toList)
    "http://example.org/zlib-1.3.tar.gz".toList
    ["sources/zlib-1.3".toList] (by decide) rfl (by decide) (by decide)

/-- Claim C9: with no cached tree, the downloaded archive file is deleted
exactly when extraction succeeds; a failed extraction leaves the archive on
disk and surfaces the failure as the raised error. -/
theorem archive_deleted_iff_extraction_succeeds (w : World)
    (sources_dir : Str) (st : St) (name : Str) (version : Option Str)
    (u : Str) (hno : ¬ libDir sources_dir name version ∈ st.files)
    (hnd : st.files.Nodup) :
    (∀ created,
      extract_archive w (archivePathOf sources_dir u) = .ok created →
      (get_library w sources_dir st name version (some u)).1 =
        .ok (libDir sources_dir name version) ∧
      ¬ archivePathOf sources_dir u ∈
        (get_library w sources_dir st name version (some u)).2.files) ∧
    (∀ e, extract_archive w (archivePathOf sources_dir u) = .error e →
      (get_library w sources_dir st name version (some u)).1 = .error e ∧
      archivePathOf sources_dir u ∈
        (get_library w sources_dir st name version (some u)).2.files) := by
  constructor
  · intro created h2
    have hfirst : get_library w sources_dir st name version (some u) =
        (.ok (libDir sources_dir name version),
          ⟨ferase (archivePathOf sources_dir u)
            (created.foldl (fun fs p => finsert p fs)
              (finsert (archivePathOf sources_dir u) st.files)),
            st.downloads + 1⟩) := by
      simp [get_library, download_file, hno, h2]
    have hnodup : (created.foldl (fun fs p => finsert p fs)
        (finsert (archivePathOf sources_dir u) st.files)).Nodup :=
      nodup_foldl_finsert created _
        (nodup_finsert (archivePathOf sources_dir u) hnd)
    refine ⟨by rw [hfirst], ?_⟩
    rw [hfirst]
    exact not_mem_ferase_self hnodup
  · intro e h2
    have hfirst : get_library w sources_dir st name version (some u) =
        (.error e,
          ⟨finsert (archivePathOf sources_dir u) st.files,
            st.downloads + 1⟩) := by
      simp [get_library, download_file, hno, h2]
    refine ⟨by rw [hfirst], ?_⟩
    rw [hfirst]
    exact mem_finsert_self (archivePathOf sources_dir u) st.files

/-- Witness for C9: a successful tarball extraction ends with the archive
gone, while an unsupported xz archive is left in place with the ValueError
surfaced. -/
theorem archive_deleted_iff_extraction_succeeds_witness :
    ((get_library
        ⟨fun _ => .ok ["sources/zlib-1.3".toList], fun _ => .error [],
          fun _ _ _ => []⟩
        "sources".toList ⟨[], 0⟩ "zlib".toList (some "1.3".toList)
        (some "http://example.org/zlib-1.3.tar.gz".toList)).1 =
      .ok (libDir "sources".toList "zlib".toList (some "1.3".toList)) ∧
    ¬ archivePathOf "sources".toList
        "http://example.org/zlib-1.3.tar.gz".toList ∈
      (get_library
        ⟨fun _ => .ok ["sources/zlib-1.3".toList], fun _ => .error [],
          fun _ _ _ => []⟩
        "sources".toList ⟨[], 0⟩ "zlib".toList (some "1.3".toList)
        (some "http://example.org/zlib-1.3.tar.gz".toList)).2.files) ∧
    ((get_library
        ⟨fun _ => .ok [], fun _ => .error [], fun _ _ _ => []⟩
        "sources".toList ⟨[], 0⟩ "zlib".toList (some "1.3".toList)
        (some "http://example.org/zlib-1.3.tar.xz".toList)).1 =
      .error ("Unsupported archive format: ".toList ++ ".xz".toList) ∧
    archivePathOf "sources".toList
        "http://example.org/zlib-1.3.tar.xz".toList ∈
      (get_library
        ⟨fun _ => .ok [], fun _ => .error [], fun _ _ _ => []⟩
        "sources".toList ⟨[], 0⟩ "zlib".toList (some "1.3".toList)
        (some "http://example.org/zlib-1.3.tar.xz".toList)).2.files) :=
  ⟨(archive_deleted_iff_extraction_succeeds
      ⟨fun _ => .ok ["sources/zlib-1.3".toList], fun _ => .error [],
        fun _ _ _ => []⟩
      "sources".toList ⟨[], 0⟩ "zlib".toList (some "1.3".toList)
      "http://example.org/zlib-1.3.tar.gz".toList (by decide)
      (by decide)).1 ["sources/zlib-1.3".toList] rfl,
    (archive_deleted_iff_extraction_succeeds
      ⟨fun _ => .ok [], fun _ => .error [], fun _ _ _ => []⟩
      "sources".toList ⟨[], 0⟩ "zlib".toList (some "1.3".toList)
      "http://example.org/zlib-1.3.tar.xz".toList (by decide)
      (by decide)).2
      ("Unsupported archive format: ".toList ++ ".xz".toList) rfl⟩

end CryptoFinder
